import Mathlib

/-!
Verification of the LoFiRe broker/client messaging core (lofire-rs).

Shallow embedding of the data model and operations of:
  src/lofire-broker/src/connection.rs
  src/lofire-broker/src/overlay.rs
  src/lofire-net/src/types.rs
  src/lofire/src/utils.rs

Cryptographic primitives (BLAKE3 hashing, keyed hashing, key derivation,
Ed25519 signing) are external collaborators of the core, invoked as pure
functions; they are modelled here as a free term algebra, so that two
crypto results are equal exactly when they were built by the same
primitive applied to the same arguments.
-/

/-- Byte strings are modelled as lists of naturals. -/
abbrev Bytes := List Nat

/-- Free term algebra for the outputs of the BLAKE3 primitives
(hash, keyed hash, derive key), which are external to the core. -/
inductive Blake3Term where
  | hash (input : Bytes)
  | keyedHash (key : Blake3Term) (input : Bytes)
  | deriveKey (context : String) (material : Bytes)
deriving DecidableEq, Repr

/-- Modelled from the spec: `Digest` in lofire/src/types.rs (not under src/),
a 32-byte BLAKE3 hash with single variant Blake3Digest32. -/
inductive Digest where
  | Blake3Digest32 (d : Blake3Term)
deriving DecidableEq, Repr

abbrev BlockId := Digest
abbrev ObjectId := BlockId
abbrev OverlayId := Digest
abbrev Timestamp := Nat

/-- Modelled from the spec: `PubKey` in lofire/src/types.rs (not under src/),
Ed25519 public key material. -/
inductive PubKey where
  | Ed25519PubKey (k : Bytes)
deriving DecidableEq, Repr

/-- Modelled from the spec: `PrivKey` in lofire/src/types.rs (not under src/),
Ed25519 private key material. -/
inductive PrivKey where
  | Ed25519PrivKey (k : Bytes)
deriving DecidableEq, Repr

/-- Modelled from the spec: `SymKey` in lofire/src/types.rs (not under src/),
a 32-byte ChaCha20 key. -/
inductive SymKey where
  | ChaCha20Key (k : Bytes)
deriving DecidableEq, Repr

abbrev PeerId := PubKey
abbrev TopicId := PubKey
abbrev UserId := PubKey

def PubKey.slice : PubKey → Bytes
  | .Ed25519PubKey k => k

def SymKey.slice : SymKey → Bytes
  | .ChaCha20Key k => k

/-- Free term for an Ed25519 signature: the real primitive signs `content`
with the keypair assembled from the private and public key bytes. -/
inductive SigTerm where
  | signed (sk : Bytes) (pk : Bytes) (content : Bytes)
deriving DecidableEq, Repr

/-- Modelled from the spec: `Sig` in lofire/src/types.rs (not under src/),
an Ed25519 signature over a canonical byte encoding of a content record. -/
inductive Sig where
  | Ed25519Sig (s : SigTerm)
deriving DecidableEq, Repr

/-- Wrappers naming the external BLAKE3 entry points used by the core. -/
def blake3_hash (input : Bytes) : Blake3Term := Blake3Term.hash input

def blake3_keyed_hash (key : Blake3Term) (input : Bytes) : Blake3Term :=
  Blake3Term.keyedHash key input

def blake3_derive_key (context : String) (material : Bytes) : Blake3Term :=
  Blake3Term.deriveKey context material

/-! ### Canonical (BARE-style) encodings

serde_bare encodes values deterministically; the core only ever feeds the
encodings to hashing or signing, so any deterministic encoder is a
faithful model. Length prefixes keep the encoders canonical. -/

def bare_enc_bytes (b : Bytes) : Bytes := b.length :: b

def bare_enc_string (s : String) : Bytes := bare_enc_bytes (s.toList.map Char.toNat)

def Blake3Term.enc : Blake3Term → Bytes
  | .hash i => 0 :: bare_enc_bytes i
  | .keyedHash k i => 1 :: bare_enc_bytes k.enc ++ bare_enc_bytes i
  | .deriveKey c m => 2 :: bare_enc_string c ++ bare_enc_bytes m

def Digest.enc : Digest → Bytes
  | .Blake3Digest32 d => 0 :: d.enc

def PubKey.enc : PubKey → Bytes
  | .Ed25519PubKey k => 0 :: bare_enc_bytes k

def SymKey.enc : SymKey → Bytes
  | .ChaCha20Key k => 0 :: bare_enc_bytes k

def bare_enc_option (f : α → Bytes) : Option α → Bytes
  | none => [0]
  | some x => 1 :: f x

def bare_enc_list (f : α → Bytes) (l : List α) : Bytes :=
  l.length :: (l.map f).flatten

/-! ### Blocks and objects -/

/-- Modelled from the spec: `ObjectDeps` in lofire/src/types.rs (not under
src/), the dependency descriptor of a block; the variant used by the core
is a plain list of object ids. -/
inductive ObjectDeps where
  | ObjectIdList (deps : List ObjectId)
deriving DecidableEq, Repr

/-- Modelled from the spec: `BlockV0` in lofire/src/types.rs (not under
src/): child block ids, dependency descriptor, optional expiry, ciphertext
payload, optional key set only at object boundaries. -/
structure BlockV0 where
  children : List BlockId
  deps : ObjectDeps
  expiry : Option Timestamp
  content : Bytes
  key : Option SymKey
deriving DecidableEq, Repr

/-- Modelled from the spec: `Block` in lofire/src/types.rs (not under src/). -/
inductive Block where
  | V0 (b : BlockV0)
deriving DecidableEq, Repr

def ObjectDeps.enc : ObjectDeps → Bytes
  | .ObjectIdList deps => 0 :: bare_enc_list Digest.enc deps

def BlockV0.enc (b : BlockV0) : Bytes :=
  bare_enc_list Digest.enc b.children ++ b.deps.enc ++
    bare_enc_option (fun t => [t]) b.expiry ++ bare_enc_bytes b.content ++
    bare_enc_option SymKey.enc b.key

def Block.enc : Block → Bytes
  | .V0 b => 0 :: b.enc

/-- Modelled from the spec: `id(block) == BLAKE3(canonical(block))`
(Block.id in lofire/src/types.rs, not under src/). -/
def Block.id (b : Block) : BlockId :=
  Digest.Blake3Digest32 (blake3_hash b.enc)

/-! ### Network data carried by repo links (src/lofire-net/src/types.rs) -/

/-- Bloom filter, as in the repository schema (variable size). -/
structure BloomFilter where
  k : Nat
  f : Bytes
deriving DecidableEq, Repr

abbrev BloomFilter128 := BloomFilter

abbrev IPv4 := Bytes
abbrev IPv6 := Bytes

inductive IP where
  | IPv4 (a : IPv4)
  | IPv6 (a : IPv6)
deriving DecidableEq, Repr

inductive IPTransportProtocol where
  | TLS
  | QUIC
deriving DecidableEq, Repr

structure IPTransportAddr where
  ip : IP
  port : Nat
  protocol : IPTransportProtocol
deriving DecidableEq, Repr

inductive NetAddr where
  | IPTransport (a : IPTransportAddr)
deriving DecidableEq, Repr

structure PeerAdvertContentV0 where
  peer : PeerId
  subs : BloomFilter128
  address : List NetAddr
  version : Nat
  metadata : Bytes
deriving DecidableEq, Repr

structure PeerAdvertV0 where
  content : PeerAdvertContentV0
  sig : Sig
  ttl : Nat
deriving DecidableEq, Repr

inductive PeerAdvert where
  | V0 (p : PeerAdvertV0)
deriving DecidableEq, Repr

/-- Link/invitation to the repository (`RepoLinkV0`). -/
structure RepoLinkV0 where
  id : PubKey
  secret : SymKey
  peers : List PeerAdvert
deriving DecidableEq, Repr

inductive RepoLink where
  | V0 (o : RepoLinkV0)
deriving DecidableEq, Repr

def RepoLink.id : RepoLink → PubKey
  | .V0 o => o.id

def RepoLink.secret : RepoLink → SymKey
  | .V0 o => o.secret

def RepoLink.peers : RepoLink → List PeerAdvert
  | .V0 o => o.peers

/-! ### OverlayId computation (src/lofire-broker/src/connection.rs,
`OverlayConnectionClient::overlay`) -/

def OverlayConnectionClient.overlay (repo_link : RepoLink) (public : Bool) : OverlayId :=
  let overlay : OverlayId :=
    match public with
    | true => Digest.Blake3Digest32 (blake3_hash repo_link.id.slice)
    | false =>
        let key : Blake3Term :=
          blake3_derive_key "LoFiRe OverlayId BLAKE3 key" repo_link.secret.slice
        let keyed_hash := blake3_keyed_hash key repo_link.id.slice
        Digest.Blake3Digest32 keyed_hash
  overlay

/-- Spec-side formula for the overlay id, written from the words of the
spec (section 3): public overlay = BLAKE3 of the repository public key,
private overlay = BLAKE3 keyed hash of the repository public key under
the key derived with context "LoFiRe OverlayId BLAKE3 key" from the
repository secret. -/
def overlay_id_spec (repo_link : RepoLink) (public : Bool) : OverlayId :=
  if public then
    Digest.Blake3Digest32 (Blake3Term.hash repo_link.id.slice)
  else
    Digest.Blake3Digest32
      (Blake3Term.keyedHash
        (Blake3Term.deriveKey "LoFiRe OverlayId BLAKE3 key" repo_link.secret.slice)
        repo_link.id.slice)

/-- C1: For every RepoLink, the OverlayId computed by
`OverlayConnectionClient::overlay` equals: when public is true, the BLAKE3
hash of the repository public key; when public is false, the BLAKE3 keyed
hash of the repository public key under the key obtained by BLAKE3
derive_key with context string "LoFiRe OverlayId BLAKE3 key" applied to
the repository secret. -/
theorem claim_C1_overlay_id (repo_link : RepoLink) (public : Bool) :
    OverlayConnectionClient.overlay repo_link public = overlay_id_spec repo_link public := by
  cases public <;>
    simp [OverlayConnectionClient.overlay, overlay_id_spec, blake3_hash,
      blake3_keyed_hash, blake3_derive_key]

/-! ### Protocol errors

Modelled from the spec: ProtocolError lives in lofire-net/src/errors.rs,
which is not under src/. Section 7 of the spec lists the error kinds;
section 6 fixes the numeric representation: a u16 result code, 0 = OK,
non-zero = specific kind, with the reserved sentinel EndOfStream used as
the stream terminator. The concrete numbering below is a model choice. -/
inductive ProtocolError where
  | InvalidMessage
  | InvalidState
  | InvalidBlock
  | InvalidSecret
  | OverlayNotJoined
  | OverlayAlreadyJoined
  | UserAlreadyExists
  | NotAnAdmin
  | SignatureError
  | NotFound
  | StorageError
  | ConnectionLost
  | CannotSend
  | WriteError
  | ActorError
  | MissingBlocks
  | EndOfStream
deriving DecidableEq, Repr

/-- Modelled from the spec: the u16 code of each error kind (0 = OK). -/
def ProtocolError.code : ProtocolError → Nat
  | .InvalidMessage => 1
  | .InvalidState => 2
  | .InvalidBlock => 3
  | .InvalidSecret => 4
  | .OverlayNotJoined => 5
  | .OverlayAlreadyJoined => 6
  | .UserAlreadyExists => 7
  | .NotAnAdmin => 8
  | .SignatureError => 9
  | .NotFound => 10
  | .StorageError => 11
  | .ConnectionLost => 12
  | .CannotSend => 13
  | .WriteError => 14
  | .ActorError => 15
  | .MissingBlocks => 16
  | .EndOfStream => 17

def ProtocolError.all : List ProtocolError :=
  [.InvalidMessage, .InvalidState, .InvalidBlock, .InvalidSecret,
   .OverlayNotJoined, .OverlayAlreadyJoined, .UserAlreadyExists, .NotAnAdmin,
   .SignatureError, .NotFound, .StorageError, .ConnectionLost, .CannotSend,
   .WriteError, .ActorError, .MissingBlocks, .EndOfStream]

/-- Modelled from the spec: ProtocolError::try_from on a u16 code. -/
def ProtocolError.tryFrom (c : Nat) : Option ProtocolError :=
  ProtocolError.all.find? (fun e => e.code = c)

/-! ### Broker protocol messages (src/lofire-net/src/types.rs) -/

inductive EventBodyV0 where
  | SubAck
  | Change
deriving DecidableEq, Repr

structure EventContentV0 where
  topic : TopicId
  publisher : Digest
  seq : Nat
  body : EventBodyV0
deriving DecidableEq, Repr

structure EventV0 where
  content : EventContentV0
  sig : Sig
deriving DecidableEq, Repr

inductive Event where
  | V0 (e : EventV0)
deriving DecidableEq, Repr

structure BranchHeadsReqV0 where
  topic : TopicId
  known_heads : List ObjectId
deriving DecidableEq, Repr

inductive BranchHeadsReq where
  | V0 (r : BranchHeadsReqV0)
deriving DecidableEq, Repr

structure BranchSyncReqV0 where
  heads : List ObjectId
  known_heads : List ObjectId
  known_commits : BloomFilter
deriving DecidableEq, Repr

inductive BranchSyncReq where
  | V0 (r : BranchSyncReqV0)
deriving DecidableEq, Repr

structure TopicAdvertContentV0 where
  topic : TopicId
  peer : PeerId
deriving DecidableEq, Repr

structure TopicAdvertV0 where
  content : TopicAdvertContentV0
  sig : Sig
deriving DecidableEq, Repr

inductive TopicAdvert where
  | V0 (t : TopicAdvertV0)
deriving DecidableEq, Repr

inductive OverlayConnect where
  | V0
deriving DecidableEq, Repr

inductive OverlayDisconnect where
  | V0
deriving DecidableEq, Repr

structure OverlayJoinV0 where
  secret : SymKey
  repo_pubkey : Option PubKey
  repo_secret : Option SymKey
  peers : List PeerAdvert
deriving DecidableEq, Repr

inductive OverlayJoin where
  | V0 (o : OverlayJoinV0)
deriving DecidableEq, Repr

def OverlayJoin.secret : OverlayJoin → SymKey
  | .V0 o => o.secret

def OverlayJoin.peers : OverlayJoin → List PeerAdvert
  | .V0 o => o.peers

inductive OverlayLeave where
  | V0
deriving DecidableEq, Repr

structure BlockGetV0 where
  id : BlockId
  include_children : Bool
  topic : Option PubKey
deriving DecidableEq, Repr

inductive BlockGet where
  | V0 (b : BlockGetV0)
deriving DecidableEq, Repr

def BlockGet.id : BlockGet → BlockId
  | .V0 b => b.id

def BlockGet.include_children : BlockGet → Bool
  | .V0 b => b.include_children

def BlockGet.topic : BlockGet → Option PubKey
  | .V0 b => b.topic

inductive BlockPut where
  | V0 (b : Block)
deriving DecidableEq, Repr

def BlockPut.block : BlockPut → Block
  | .V0 b => b

/-- Source quirk kept as is: `ObjectPin` has a unit variant named
ObjectPinV0 rather than a V0 payload. -/
inductive ObjectPin where
  | ObjectPinV0
deriving DecidableEq, Repr

structure ObjectUnpinV0 where
  id : ObjectId
deriving DecidableEq, Repr

inductive ObjectUnpin where
  | V0 (o : ObjectUnpinV0)
deriving DecidableEq, Repr

structure ObjectCopyV0 where
  id : ObjectId
  expiry : Option Timestamp
deriving DecidableEq, Repr

inductive ObjectCopy where
  | V0 (o : ObjectCopyV0)
deriving DecidableEq, Repr

structure ObjectDelV0 where
  id : ObjectId
deriving DecidableEq, Repr

inductive ObjectDel where
  | V0 (o : ObjectDelV0)
deriving DecidableEq, Repr

structure TopicSubV0 where
  topic : PubKey
  advert : Option TopicAdvert
deriving DecidableEq, Repr

inductive TopicSub where
  | V0 (t : TopicSubV0)
deriving DecidableEq, Repr

structure TopicUnsubV0 where
  topic : PubKey
deriving DecidableEq, Repr

inductive TopicUnsub where
  | V0 (t : TopicUnsubV0)
deriving DecidableEq, Repr

structure TopicConnectV0 where
  topic : PubKey
deriving DecidableEq, Repr

inductive TopicConnect where
  | V0 (t : TopicConnectV0)
deriving DecidableEq, Repr

structure TopicDisconnectV0 where
  topic : PubKey
deriving DecidableEq, Repr

inductive TopicDisconnect where
  | V0 (t : TopicDisconnectV0)
deriving DecidableEq, Repr

inductive BrokerOverlayRequestContentV0 where
  | OverlayConnect (c : OverlayConnect)
  | OverlayDisconnect (c : OverlayDisconnect)
  | OverlayJoin (c : OverlayJoin)
  | OverlayLeave (c : OverlayLeave)
  | TopicSub (c : TopicSub)
  | TopicUnsub (c : TopicUnsub)
  | TopicConnect (c : TopicConnect)
  | TopicDisconnect (c : TopicDisconnect)
  | Event (c : Event)
  | BlockGet (c : BlockGet)
  | BlockPut (c : BlockPut)
  | ObjectPin (c : ObjectPin)
  | ObjectUnpin (c : ObjectUnpin)
  | ObjectCopy (c : ObjectCopy)
  | ObjectDel (c : ObjectDel)
  | BranchHeadsReq (c : BranchHeadsReq)
  | BranchSyncReq (c : BranchSyncReq)
deriving DecidableEq, Repr

structure BrokerOverlayRequestV0 where
  id : Nat
  content : BrokerOverlayRequestContentV0
deriving DecidableEq, Repr

inductive BrokerOverlayRequest where
  | V0 (r : BrokerOverlayRequestV0)
deriving DecidableEq, Repr

def BrokerOverlayRequest.id : BrokerOverlayRequest → Nat
  | .V0 o => o.id

inductive BrokerOverlayResponseContentV0 where
  | Block (b : Block)
deriving DecidableEq, Repr

structure BrokerOverlayResponseV0 where
  id : Nat
  result : Nat
  content : Option BrokerOverlayResponseContentV0
deriving DecidableEq, Repr

inductive BrokerOverlayResponse where
  | V0 (r : BrokerOverlayResponseV0)
deriving DecidableEq, Repr

def BrokerOverlayResponse.id : BrokerOverlayResponse → Nat
  | .V0 o => o.id

def BrokerOverlayResponse.result : BrokerOverlayResponse → Nat
  | .V0 o => o.result

def BrokerOverlayResponse.block : BrokerOverlayResponse → Option Block
  | .V0 o =>
    match o.content with
    | some (.Block b) => some b
    | none => none

structure AddUserContentV0 where
  user : PubKey
deriving DecidableEq, Repr

structure AddUserV0 where
  content : AddUserContentV0
  sig : Sig
deriving DecidableEq, Repr

inductive AddUser where
  | V0 (a : AddUserV0)
deriving DecidableEq, Repr

structure DelUserContentV0 where
  user : PubKey
deriving DecidableEq, Repr

structure DelUserV0 where
  content : DelUserContentV0
  sig : Sig
deriving DecidableEq, Repr

inductive DelUser where
  | V0 (a : DelUserV0)
deriving DecidableEq, Repr

structure AddClientContentV0 where
  client : PubKey
deriving DecidableEq, Repr

structure AddClientV0 where
  content : AddClientContentV0
  sig : Sig
deriving DecidableEq, Repr

inductive AddClient where
  | V0 (a : AddClientV0)
deriving DecidableEq, Repr

structure DelClientContentV0 where
  client : PubKey
deriving DecidableEq, Repr

structure DelClientV0 where
  content : DelClientContentV0
  sig : Sig
deriving DecidableEq, Repr

inductive DelClient where
  | V0 (a : DelClientV0)
deriving DecidableEq, Repr

inductive BrokerRequestContentV0 where
  | AddUser (a : AddUser)
  | DelUser (a : DelUser)
  | AddClient (a : AddClient)
  | DelClient (a : DelClient)
deriving DecidableEq, Repr

structure BrokerRequestV0 where
  id : Nat
  content : BrokerRequestContentV0
deriving DecidableEq, Repr

inductive BrokerRequest where
  | V0 (r : BrokerRequestV0)
deriving DecidableEq, Repr

def BrokerRequest.id : BrokerRequest → Nat
  | .V0 o => o.id

structure BrokerResponseV0 where
  id : Nat
  result : Nat
deriving DecidableEq, Repr

inductive BrokerResponse where
  | V0 (r : BrokerResponseV0)
deriving DecidableEq, Repr

def BrokerResponse.id : BrokerResponse → Nat
  | .V0 o => o.id

def BrokerResponse.result : BrokerResponse → Nat
  | .V0 o => o.result

inductive BrokerOverlayMessageContentV0 where
  | BrokerOverlayRequest (r : BrokerOverlayRequest)
  | BrokerOverlayResponse (r : BrokerOverlayResponse)
  | Event (e : Event)
deriving DecidableEq, Repr

structure BrokerOverlayMessageV0 where
  overlay : OverlayId
  content : BrokerOverlayMessageContentV0
deriving DecidableEq, Repr

inductive BrokerOverlayMessage where
  | V0 (m : BrokerOverlayMessageV0)
deriving DecidableEq, Repr

def BrokerOverlayMessage.is_request : BrokerOverlayMessage → Bool
  | .V0 o =>
    match o.content with
    | .BrokerOverlayRequest _ => true
    | _ => false

def BrokerOverlayMessage.is_response : BrokerOverlayMessage → Bool
  | .V0 o =>
    match o.content with
    | .BrokerOverlayResponse _ => true
    | _ => false

/-- The source accessor panics on an Event; the panic is modelled by
returning none. -/
def BrokerOverlayMessage.id : BrokerOverlayMessage → Option Nat
  | .V0 o =>
    match o.content with
    | .BrokerOverlayResponse r => some r.id
    | .BrokerOverlayRequest r => some r.id
    | .Event _ => none

/-- The source accessor panics on a request or an Event; the panic is
modelled by returning none. -/
def BrokerOverlayMessage.result : BrokerOverlayMessage → Option Nat
  | .V0 o =>
    match o.content with
    | .BrokerOverlayResponse r => some r.result
    | .BrokerOverlayRequest _ => none
    | .Event _ => none

/-- The source accessor panics on a request or an Event; the panic is
modelled by the outer none. -/
def BrokerOverlayMessage.block : BrokerOverlayMessage → Option (Option Block)
  | .V0 o =>
    match o.content with
    | .BrokerOverlayResponse r => some r.block
    | .BrokerOverlayRequest _ => none
    | .Event _ => none

inductive BrokerMessageContentV0 where
  | BrokerRequest (r : BrokerRequest)
  | BrokerResponse (r : BrokerResponse)
  | BrokerOverlayMessage (m : BrokerOverlayMessage)
deriving DecidableEq, Repr

structure BrokerMessageV0 where
  content : BrokerMessageContentV0
  padding : Bytes
deriving DecidableEq, Repr

inductive BrokerMessage where
  | V0 (m : BrokerMessageV0)
deriving DecidableEq, Repr

def BrokerMessage.is_request : BrokerMessage → Bool
  | .V0 o =>
    match o.content with
    | .BrokerOverlayMessage p => p.is_request
    | .BrokerResponse _ => false
    | .BrokerRequest _ => true

def BrokerMessage.is_response : BrokerMessage → Bool
  | .V0 o =>
    match o.content with
    | .BrokerOverlayMessage p => p.is_response
    | .BrokerResponse _ => true
    | .BrokerRequest _ => false

/-- The source accessor panics on an overlay Event; the panic is modelled
by returning none. -/
def BrokerMessage.id : BrokerMessage → Option Nat
  | .V0 o =>
    match o.content with
    | .BrokerOverlayMessage p => p.id
    | .BrokerResponse r => some r.id
    | .BrokerRequest r => some r.id

/-- The source accessor panics on requests and Events; modelled by none. -/
def BrokerMessage.result : BrokerMessage → Option Nat
  | .V0 o =>
    match o.content with
    | .BrokerOverlayMessage p => p.result
    | .BrokerResponse r => some r.result
    | .BrokerRequest _ => none

/-- The source accessor panics on non-overlay messages and on requests and
Events; modelled by the outer none. -/
def BrokerMessage.response_block : BrokerMessage → Option (Option Block)
  | .V0 o =>
    match o.content with
    | .BrokerOverlayMessage p => p.block
    | .BrokerResponse _ => none
    | .BrokerRequest _ => none

/-! ### The client multiplexer reader task
(src/lofire-broker/src/connection.rs, `connection_reader_loop`)

The pending maps `actors` and `stream_actors` hold weak actor addresses
keyed by request id; an entry is modelled as the id paired with whether
the weak address can still be upgraded. The reader task never mutates the
maps (insertion happens at the issuing call site and removal at the call
site or in the per-stream cleanup task), so dispatching one incoming
message is a pure function from the maps and the message to the action
taken. -/
inductive ReaderAction where
  | requestIgnored
  | deliveredUnary (id : Nat)
  | deliveredStream (id : Nat)
  | deadUnaryActor (id : Nat)
  | deadStreamActor (id : Nat)
  | unknownActor (id : Nat)
  | eventIgnored
  | panicked
  | closedLink
deriving DecidableEq, Repr

def connection_reader_step (actors stream_actors : List (Nat × Bool))
    (message : BrokerMessage) : ReaderAction :=
  if message.is_request then
    -- the source only prints a debug line here; the comment reads
    -- TODO close connection. a client is not supposed to receive requests.
    ReaderAction.requestIgnored
  else if message.is_response then
    match message.id with
    | none => ReaderAction.panicked
    | some id =>
      match actors.lookup id with
      | some alive =>
          if alive then ReaderAction.deliveredUnary id
          else ReaderAction.deadUnaryActor id
      | none =>
        match stream_actors.lookup id with
        | some alive =>
            if alive then ReaderAction.deliveredStream id
            else ReaderAction.deadStreamActor id
        | none => ReaderAction.unknownActor id
  else
    ReaderAction.eventIgnored

/-- A concrete request frame as received by the client reader task. -/
def c2_request_message : BrokerMessage :=
  BrokerMessage.V0
    { content := BrokerMessageContentV0.BrokerRequest
        (BrokerRequest.V0
          { id := 7,
            content := BrokerRequestContentV0.DelUser
              (DelUser.V0
                { content := { user := PubKey.Ed25519PubKey [] },
                  sig := Sig.Ed25519Sig (SigTerm.signed [] [] []) }) }),
      padding := [] }

/-- C2 (code bug): the claim says a request frame received by the client
multiplexer is a protocol violation on which the link is closed. In the
source the branch for request frames only prints a debug line and carries
the comment "TODO close connection"; the reader keeps the link open and
continues the loop. At the concrete request frame the dispatch yields
requestIgnored, not closedLink. Response routing (unary slot first, then
stream slot, otherwise ignore) is as claimed. -/
theorem claim_C2_request_frame_not_closed :
    c2_request_message.is_request = true ∧
    connection_reader_step [] [] c2_request_message = ReaderAction.requestIgnored ∧
    ReaderAction.requestIgnored ≠ ReaderAction.closedLink := by
  refine ⟨rfl, rfl, ?_⟩
  decide

/-- An overlay Event frame, as carried inside a BrokerMessage. -/
def event_frame (ev : Event) (overlay : OverlayId) (padding : Bytes) : BrokerMessage :=
  BrokerMessage.V0
    { content := BrokerMessageContentV0.BrokerOverlayMessage
        (BrokerOverlayMessage.V0
          { overlay := overlay,
            content := BrokerOverlayMessageContentV0.Event ev }),
      padding := padding }

/-- C9: a BrokerMessage whose content is a BrokerOverlayMessage carrying an
Event is neither a request nor a response; the reader task dispatch
ignores it without touching either pending map and without reaching the
partial id()/result() accessors (whose panics are modelled by none). -/
theorem claim_C9_event_frame_ignored (ev : Event) (overlay : OverlayId) (padding : Bytes)
    (actors stream_actors : List (Nat × Bool)) :
    (event_frame ev overlay padding).is_request = false ∧
    (event_frame ev overlay padding).is_response = false ∧
    (event_frame ev overlay padding).id = none ∧
    (event_frame ev overlay padding).result = none ∧
    connection_reader_step actors stream_actors (event_frame ev overlay padding) =
      ReaderAction.eventIgnored := by
  refine ⟨rfl, rfl, rfl, rfl, ?_⟩
  simp [connection_reader_step, event_frame, BrokerMessage.is_request,
    BrokerMessage.is_response, BrokerOverlayMessage.is_request,
    BrokerOverlayMessage.is_response]

/-! ### The streaming response actor
(src/lofire-broker/src/connection.rs, `BrokerMessageStreamActor` and its
Handler impl for BrokerMessageXActor) -/

/-- Modelled from the spec: the conversion
impl From BrokerMessage for Result of Option Block / ProtocolError
lives in lofire-net/src/errors.rs, which is not under src/. Per sections
4.5.2, 6 and 7 of the spec: result 0 = OK carries the optional block
content; the reserved EndOfStream sentinel terminates the stream and is
never surfaced as an error; any other non-zero result decodes to the
ProtocolError of that code. -/
def BrokerMessage.into_block_result (m : BrokerMessage) : Except ProtocolError (Option Block) :=
  match m.result with
  | none => Except.error ProtocolError.InvalidMessage
  | some r =>
    if r = 0 then
      match m.response_block with
      | some b => Except.ok b
      | none => Except.ok none
    else if r = ProtocolError.EndOfStream.code then Except.ok none
    else
      match ProtocolError.tryFrom r with
      | some e => Except.error e
      | none => Except.error ProtocolError.InvalidMessage

/-- State of one BrokerMessageStreamActor: the one-shot error sender
(`error_s`, consumed on first use), the values actually delivered through
it, the blocks pushed into the unbounded channel, and the channel/actor
status flags. -/
structure BrokerMessageStreamActorState where
  error_s : Option Unit
  error_sent : List (Option ProtocolError)
  blocks : List Block
  closed : Bool
  stopped : Bool
deriving DecidableEq, Repr

def BrokerMessageStreamActorState.new : BrokerMessageStreamActorState :=
  { error_s := some (), error_sent := [], blocks := [], closed := false, stopped := false }

/-- `send_error`: sends on the one-shot only when the sender is still
present, then drops it (source lines 87 to 92). -/
def BrokerMessageStreamActorState.send_error (st : BrokerMessageStreamActorState)
    (err : Option ProtocolError) : BrokerMessageStreamActorState :=
  if st.error_s.isSome then
    { st with error_s := none, error_sent := st.error_sent ++ [err] }
  else
    st

/-- One invocation of the stream actor handler on the converted incoming
response (source lines 108 to 135). Pushing into the unbounded channel
only fails after the receiver is dropped, which detaches the consumer;
the push is therefore modelled as succeeding. -/
def BrokerMessageStreamActorState.handle (st : BrokerMessageStreamActorState)
    (res : Except ProtocolError (Option Block)) : BrokerMessageStreamActorState :=
  match res with
  | Except.error e =>
    let st1 := st.send_error (some e)
    { st1 with stopped := true, closed := true }
  | Except.ok (some b) =>
    let st1 := st.send_error none
    { st1 with blocks := st1.blocks ++ [b] }
  | Except.ok none =>
    let st1 := st.send_error none
    { st1 with stopped := true, closed := true }

def BrokerMessageStreamActorState.handleAll (st : BrokerMessageStreamActorState)
    (rs : List (Except ProtocolError (Option Block))) : BrokerMessageStreamActorState :=
  rs.foldl BrokerMessageStreamActorState.handle st

lemma stream_actor_handle_error_sent_extend (st : BrokerMessageStreamActorState)
    (res : Except ProtocolError (Option Block)) :
    ∃ t, (st.handle res).error_sent = st.error_sent ++ t := by
  cases res with
  | error e =>
    simp only [BrokerMessageStreamActorState.handle, BrokerMessageStreamActorState.send_error]
    by_cases h : st.error_s.isSome <;> simp [h]
  | ok ob =>
    cases ob with
    | none =>
      simp only [BrokerMessageStreamActorState.handle, BrokerMessageStreamActorState.send_error]
      by_cases h : st.error_s.isSome <;> simp [h]
    | some b =>
      simp only [BrokerMessageStreamActorState.handle, BrokerMessageStreamActorState.send_error]
      by_cases h : st.error_s.isSome <;> simp [h]

lemma stream_actor_handleAll_error_sent_extend (rs : List (Except ProtocolError (Option Block)))
    (st : BrokerMessageStreamActorState) :
    ∃ t, (st.handleAll rs).error_sent = st.error_sent ++ t := by
  induction rs generalizing st with
  | nil => exact ⟨[], by simp [BrokerMessageStreamActorState.handleAll]⟩
  | cons r rest ih =>
    obtain ⟨t1, h1⟩ := stream_actor_handle_error_sent_extend st r
    obtain ⟨t2, h2⟩ := ih (st.handle r)
    refine ⟨t1 ++ t2, ?_⟩
    simp only [BrokerMessageStreamActorState.handleAll] at h2 ⊢
    simp [List.foldl_cons, h2, h1]

/-- Invariant carried along the handler: the one-shot has been consumed
exactly when something was delivered through it, and at most one value is
ever delivered. -/
def stream_actor_inv (st : BrokerMessageStreamActorState) : Prop :=
  (st.error_s.isSome → st.error_sent = []) ∧ st.error_sent.length ≤ 1

lemma stream_actor_inv_new : stream_actor_inv BrokerMessageStreamActorState.new := by
  constructor <;> simp [BrokerMessageStreamActorState.new]

lemma stream_actor_send_error_inv (st : BrokerMessageStreamActorState)
    (err : Option ProtocolError) (h : stream_actor_inv st) :
    stream_actor_inv (st.send_error err) := by
  obtain ⟨h1, h2⟩ := h
  simp only [BrokerMessageStreamActorState.send_error]
  by_cases hs : st.error_s.isSome
  · simp [stream_actor_inv, hs, h1 hs]
  · simpa [hs] using ⟨h1, h2⟩

lemma stream_actor_handle_inv (st : BrokerMessageStreamActorState)
    (res : Except ProtocolError (Option Block)) (h : stream_actor_inv st) :
    stream_actor_inv (st.handle res) := by
  cases res with
  | error e =>
    have := stream_actor_send_error_inv st (some e) h
    simpa [BrokerMessageStreamActorState.handle, stream_actor_inv] using this
  | ok ob =>
    cases ob with
    | none =>
      have := stream_actor_send_error_inv st none h
      simpa [BrokerMessageStreamActorState.handle, stream_actor_inv] using this
    | some b =>
      have := stream_actor_send_error_inv st none h
      simpa [BrokerMessageStreamActorState.handle, stream_actor_inv] using this

lemma stream_actor_handleAll_inv (rs : List (Except ProtocolError (Option Block)))
    (st : BrokerMessageStreamActorState) (h : stream_actor_inv st) :
    stream_actor_inv (st.handleAll rs) := by
  induction rs generalizing st with
  | nil => simpa [BrokerMessageStreamActorState.handleAll] using h
  | cons r rest ih =>
    have h1 := stream_actor_handle_inv st r h
    simpa [BrokerMessageStreamActorState.handleAll] using ih (st.handle r) h1

/-- C10: over any sequence of handler invocations on a freshly created
stream actor, at most one value is ever delivered through the one-shot
error signal: the first send_error consumes the sender and every later
send_error is a no-op. -/
theorem claim_C10_error_signal_at_most_once
    (rs : List (Except ProtocolError (Option Block))) :
    (BrokerMessageStreamActorState.new.handleAll rs).error_sent.length ≤ 1 :=
  (stream_actor_handleAll_inv rs BrokerMessageStreamActorState.new stream_actor_inv_new).2

/-- The value the first handler invocation delivers through the one-shot:
some e when the converted response is an error, none when it is a block
or the stream terminator. -/
def stream_first_signal (res : Except ProtocolError (Option Block)) : Option ProtocolError :=
  match res with
  | Except.error e => some e
  | Except.ok _ => none

lemma stream_actor_handle_new_error_sent (res : Except ProtocolError (Option Block)) :
    (BrokerMessageStreamActorState.new.handle res).error_sent = [stream_first_signal res] := by
  cases res with
  | error e =>
    simp [BrokerMessageStreamActorState.handle, BrokerMessageStreamActorState.send_error,
      BrokerMessageStreamActorState.new, stream_first_signal]
  | ok ob =>
    cases ob <;>
      simp [BrokerMessageStreamActorState.handle, BrokerMessageStreamActorState.send_error,
        BrokerMessageStreamActorState.new, stream_first_signal]

/-- The awaited one-shot resolves to the signal computed from the first
response handled by the stream actor. -/
lemma stream_actor_first_signal (r : Except ProtocolError (Option Block))
    (rs : List (Except ProtocolError (Option Block))) :
    (BrokerMessageStreamActorState.new.handleAll (r :: rs)).error_sent.head? =
      some (stream_first_signal r) := by
  obtain ⟨t, ht⟩ :=
    stream_actor_handleAll_error_sent_extend rs (BrokerMessageStreamActorState.new.handle r)
  have h0 : (BrokerMessageStreamActorState.new.handleAll (r :: rs)) =
      (BrokerMessageStreamActorState.new.handle r).handleAll rs := by
    simp [BrokerMessageStreamActorState.handleAll]
  rw [h0, ht, stream_actor_handle_new_error_sent]
  simp

/-! ### Streaming call path
(src/lofire-broker/src/connection.rs,
`BrokerConnectionRemote::process_overlay_request_stream_response`) -/

/-- Observable outcome of a streaming call: the request frame written to
the link, what the call returned (none while the first response has not
arrived, since the call is suspended on the one-shot), and the pending
stream map afterwards. -/
structure StreamCallResult where
  frame_sent : BrokerMessage
  returned : Option (Except ProtocolError Unit)
  stream_actors_after : List (Nat × Bool)
deriving Repr

/-- The request frame built by the remote connection around a
BrokerOverlayRequest (padding left empty, as in the source). -/
def overlay_request_frame (overlay : OverlayId) (request_id : Nat)
    (request : BrokerOverlayRequestContentV0) : BrokerMessage :=
  BrokerMessage.V0
    { padding := [],
      content := BrokerMessageContentV0.BrokerOverlayMessage
        (BrokerOverlayMessage.V0
          { overlay := overlay,
            content := BrokerOverlayMessageContentV0.BrokerOverlayRequest
              (BrokerOverlayRequest.V0
                { id := request_id, content := request }) }) }

/-- Streaming call, as a function of the responses later routed to its
request id (in arrival order). The call installs the stream actor in the
pending map, writes the frame, then suspends on the error one-shot; the
outcome is decided by the first value delivered through it. -/
def BrokerConnectionRemote.process_overlay_request_stream_response
    (stream_actors : List (Nat × Bool)) (request_id : Nat)
    (overlay : OverlayId) (request : BrokerOverlayRequestContentV0)
    (incoming : List BrokerMessage) : StreamCallResult :=
  let map1 := (request_id, true) :: stream_actors
  let frame := overlay_request_frame overlay request_id request
  let actor_final :=
    BrokerMessageStreamActorState.new.handleAll
      (incoming.map BrokerMessage.into_block_result)
  match actor_final.error_sent.head? with
  | none =>
      { frame_sent := frame, returned := none, stream_actors_after := map1 }
  | some (some e) =>
      { frame_sent := frame, returned := some (Except.error e),
        stream_actors_after := map1.filter (fun kv => kv.1 != request_id) }
  | some none =>
      { frame_sent := frame, returned := some (Except.ok ()),
        stream_actors_after := map1 }

/-- Spec-side description of what the streaming call returns, written from
the words of the claim: nothing before the first response for the id
arrives; Ok with the lazy block stream when the first response carries no
error; Err with that error when it does. -/
def stream_call_returned_spec (incoming : List BrokerMessage) :
    Option (Except ProtocolError Unit) :=
  match incoming.head? with
  | none => none
  | some m =>
    match m.into_block_result with
    | Except.error e => some (Except.error e)
    | Except.ok _ => some (Except.ok ())

/-- Spec-side description of the pending stream map after the call: the
entry for the id is installed by the call and removed again exactly when
the first response carried an error. -/
def stream_call_map_spec (stream_actors : List (Nat × Bool)) (request_id : Nat)
    (incoming : List BrokerMessage) : List (Nat × Bool) :=
  match incoming.head? with
  | some m =>
    match m.into_block_result with
    | Except.error _ =>
        ((request_id, true) :: stream_actors).filter (fun kv => kv.1 != request_id)
    | Except.ok _ => (request_id, true) :: stream_actors
  | none => (request_id, true) :: stream_actors

/-- C3: a streaming call returns only after the first response for its
request id arrives; it returns Ok with the lazy block stream when that
response carries no error, and Err with the decoded error when it does,
in which case the pending stream entry for the id is removed from the
pending stream map. -/
theorem claim_C3_stream_call_first_response
    (stream_actors : List (Nat × Bool)) (request_id : Nat)
    (overlay : OverlayId) (request : BrokerOverlayRequestContentV0)
    (incoming : List BrokerMessage) :
    (BrokerConnectionRemote.process_overlay_request_stream_response
        stream_actors request_id overlay request incoming).returned =
      stream_call_returned_spec incoming ∧
    (BrokerConnectionRemote.process_overlay_request_stream_response
        stream_actors request_id overlay request incoming).stream_actors_after =
      stream_call_map_spec stream_actors request_id incoming := by
  cases incoming with
  | nil =>
    simp [BrokerConnectionRemote.process_overlay_request_stream_response,
      stream_call_returned_spec, stream_call_map_spec,
      BrokerMessageStreamActorState.handleAll, BrokerMessageStreamActorState.new]
  | cons m rest =>
    have hsig := stream_actor_first_signal (m.into_block_result)
      (rest.map BrokerMessage.into_block_result)
    constructor
    · simp only [BrokerConnectionRemote.process_overlay_request_stream_response,
        List.map_cons, hsig, stream_call_returned_spec, List.head?_cons]
      cases h : m.into_block_result with
      | error e => simp [stream_first_signal, h]
      | ok ob => simp [stream_first_signal, h]
    · simp only [BrokerConnectionRemote.process_overlay_request_stream_response,
        List.map_cons, hsig, stream_call_map_spec, List.head?_cons]
      cases h : m.into_block_result with
      | error e => simp [stream_first_signal, h]
      | ok ob => simp [stream_first_signal, h]

/-! ### overlay_connect
(src/lofire-broker/src/connection.rs, `BrokerConnectionRemote::overlay_connect`) -/

def overlay_connect_request : BrokerOverlayRequestContentV0 :=
  BrokerOverlayRequestContentV0.OverlayConnect OverlayConnect.V0

def overlay_join_request (repo_link : RepoLink) : BrokerOverlayRequestContentV0 :=
  BrokerOverlayRequestContentV0.OverlayJoin
    (OverlayJoin.V0
      { secret := repo_link.secret,
        peers := repo_link.peers,
        repo_pubkey := none,
        repo_secret := none })

/-- Observable behaviour of `BrokerConnectionRemote::overlay_connect`
against a unary request handler standing for the broker: the overlay
requests written to the link, in order, and the result. On success the
OverlayConnectionClient handed back carries the computed overlay id. -/
def BrokerConnectionRemote.overlay_connect
    (handler : BrokerOverlayRequestContentV0 → Except ProtocolError Unit)
    (repo_link : RepoLink) (public : Bool) :
    List BrokerOverlayRequestContentV0 × Except ProtocolError OverlayId :=
  let overlay := OverlayConnectionClient.overlay repo_link public
  let res := handler overlay_connect_request
  match res with
  | Except.error e =>
    if e = ProtocolError.OverlayNotJoined then
      match handler (overlay_join_request repo_link) with
      | Except.error e2 =>
          ([overlay_connect_request, overlay_join_request repo_link], Except.error e2)
      | Except.ok _ =>
          ([overlay_connect_request, overlay_join_request repo_link], Except.ok overlay)
    else
      ([overlay_connect_request], Except.error e)
  | Except.ok _ => ([overlay_connect_request], Except.ok overlay)

def is_overlay_connect_request : BrokerOverlayRequestContentV0 → Bool
  | BrokerOverlayRequestContentV0.OverlayConnect _ => true
  | _ => false

/-- A broker for which the overlay is not yet joined: OverlayConnect fails
with OverlayNotJoined, every other request succeeds. -/
def c4_handler : BrokerOverlayRequestContentV0 → Except ProtocolError Unit
  | BrokerOverlayRequestContentV0.OverlayConnect _ =>
      Except.error ProtocolError.OverlayNotJoined
  | _ => Except.ok ()

def c4_link : RepoLink :=
  RepoLink.V0
    { id := PubKey.Ed25519PubKey [1],
      secret := SymKey.ChaCha20Key [2],
      peers := [] }

/-- C4 counterexample: the claim as stated says that after falling back to
OverlayJoin the call retries, that is, sends the OverlayConnect request
again. Against a broker whose OverlayConnect answers OverlayNotJoined and
whose OverlayJoin succeeds, the source sends exactly one OverlayConnect
followed by one OverlayJoin and returns: no second OverlayConnect is ever
written. -/
theorem claim_C4_counterexample :
    (BrokerConnectionRemote.overlay_connect c4_handler c4_link true).1 =
      [overlay_connect_request, overlay_join_request c4_link] ∧
    ¬ 2 ≤ ((BrokerConnectionRemote.overlay_connect c4_handler c4_link true).1.countP
        is_overlay_connect_request) := by
  constructor
  · rfl
  · decide

/-- Spec-side description of overlay_connect as amended: compute the
overlay id from the link per section 3, send OverlayConnect; on
OverlayNotJoined send OverlayJoin with the secret and peers of the link
and succeed exactly when the join succeeds, without re-sending
OverlayConnect; on any other error surface it unchanged. -/
def overlay_connect_spec
    (handler : BrokerOverlayRequestContentV0 → Except ProtocolError Unit)
    (repo_link : RepoLink) (public : Bool) :
    List BrokerOverlayRequestContentV0 × Except ProtocolError OverlayId :=
  let overlay := overlay_id_spec repo_link public
  match handler overlay_connect_request with
  | Except.ok _ => ([overlay_connect_request], Except.ok overlay)
  | Except.error ProtocolError.OverlayNotJoined =>
      ([overlay_connect_request, overlay_join_request repo_link],
        (handler (overlay_join_request repo_link)).map (fun _ => overlay))
  | Except.error e => ([overlay_connect_request], Except.error e)

/-- C4 amended: overlay_connect computes the OverlayId from the link,
sends OverlayConnect; when that fails with OverlayNotJoined it falls back
to sending OverlayJoin carrying the secret and peers of the link and
succeeds exactly when the join succeeds (without re-sending
OverlayConnect); when OverlayConnect fails with any other error,
overlay_connect returns that same error unchanged. -/
theorem claim_C4_overlay_connect_fallback
    (handler : BrokerOverlayRequestContentV0 → Except ProtocolError Unit)
    (repo_link : RepoLink) (public : Bool) :
    BrokerConnectionRemote.overlay_connect handler repo_link public =
      overlay_connect_spec handler repo_link public := by
  have hid := claim_C1_overlay_id repo_link public
  simp only [BrokerConnectionRemote.overlay_connect, overlay_connect_spec]
  cases h : handler overlay_connect_request with
  | ok u => simp [hid]
  | error e =>
    cases h2 : handler (overlay_join_request repo_link) with
    | ok u => cases e <;> simp [hid, Except.map, h2]
    | error e2 => cases e <;> simp [hid, Except.map, h2]

/-! ### Authentication handshake
(src/lofire-broker/src/connection.rs, `ConnectionRemote::open_broker_connection`;
message types from src/lofire-net/src/types.rs; `sign` from src/lofire/src/utils.rs) -/

structure ExtObjectGetV0 where
  repo : PubKey
  ids : List ObjectId
  include_children : Bool
  expiry : Option Timestamp
deriving DecidableEq, Repr

inductive ExtObjectGet where
  | V0 (e : ExtObjectGetV0)
deriving DecidableEq, Repr

abbrev ExtBranchHeadsReq := BranchHeadsReq
abbrev ExtBranchSyncReq := BranchSyncReq

inductive ExtRequestContentV0 where
  | ExtObjectGet (e : ExtObjectGet)
  | ExtBranchHeadsReq (e : ExtBranchHeadsReq)
  | ExtBranchSyncReq (e : ExtBranchSyncReq)
deriving DecidableEq, Repr

structure ExtRequestV0 where
  id : Nat
  content : ExtRequestContentV0
  mac : Digest
deriving DecidableEq, Repr

inductive ExtRequest where
  | V0 (e : ExtRequestV0)
deriving DecidableEq, Repr

inductive ClientHello where
  | V0
deriving DecidableEq, Repr

inductive StartProtocol where
  | Auth (h : ClientHello)
  | Ext (r : ExtRequest)
deriving DecidableEq, Repr

structure ServerHelloV0 where
  nonce : Bytes
deriving DecidableEq, Repr

inductive ServerHello where
  | V0 (s : ServerHelloV0)
deriving DecidableEq, Repr

def ServerHello.nonce : ServerHello → Bytes
  | .V0 o => o.nonce

structure ClientAuthContentV0 where
  user : PubKey
  client : PubKey
  nonce : Bytes
deriving DecidableEq, Repr

structure ClientAuthV0 where
  content : ClientAuthContentV0
  sig : Sig
deriving DecidableEq, Repr

inductive ClientAuth where
  | V0 (a : ClientAuthV0)
deriving DecidableEq, Repr

structure AuthResultV0 where
  result : Nat
  metadata : Bytes
deriving DecidableEq, Repr

inductive AuthResult where
  | V0 (a : AuthResultV0)
deriving DecidableEq, Repr

def AuthResult.result : AuthResult → Nat
  | .V0 o => o.result

def AuthResult.metadata : AuthResult → Bytes
  | .V0 o => o.metadata

def PrivKey.slice : PrivKey → Bytes
  | .Ed25519PrivKey k => k

/-- Modelled from the spec: `LofireError` in lofire/src/errors.rs (not
under src/), the error type of the crypto helpers. -/
inductive LofireError where
  | SignatureError
  | SerializationError
deriving DecidableEq, Repr

/-- `sign` from src/lofire/src/utils.rs: builds the Ed25519 keypair from
the private and public key bytes and signs the content; in the symbolic
crypto model assembling the keypair from well-formed key material cannot
fail. -/
def sign (author_privkey : PrivKey) (author_pubkey : PubKey) (content : Bytes) :
    Except LofireError Sig :=
  match author_privkey, author_pubkey with
  | PrivKey.Ed25519PrivKey sk, PubKey.Ed25519PubKey pk =>
      Except.ok (Sig.Ed25519Sig (SigTerm.signed sk pk content))

/-- Canonical encoding of the ClientAuth content record. -/
def ClientAuthContentV0.enc (c : ClientAuthContentV0) : Bytes :=
  c.user.enc ++ c.client.enc ++ bare_enc_bytes c.nonce

/-- A frame written by the client during the handshake. -/
inductive HandshakeFrame where
  | start (s : StartProtocol)
  | auth (a : ClientAuth)
deriving DecidableEq, Repr

/-- `ConnectionRemote::open_broker_connection` as a function of the two
server replies (none models a closed transport): the frames the client
writes and what the call returns. In the result, none models the source
panic when the non-zero result code does not decode to a ProtocolError,
some (ok ()) is the multiplexed connection being opened, and
some (error e) is the error returned to the caller. -/
def ConnectionRemote.open_broker_connection
    (server_hello : Option ServerHello) (auth_result : Option AuthResult)
    (user : PubKey) (user_pk : PrivKey) (client : PubKey) :
    List HandshakeFrame × Option (Except ProtocolError Unit) :=
  let sent1 := [HandshakeFrame.start (StartProtocol.Auth ClientHello.V0)]
  match server_hello with
  | none => (sent1, some (Except.error ProtocolError.InvalidState))
  | some sh =>
    let content : ClientAuthContentV0 :=
      { user := user, client := client, nonce := sh.nonce }
    match sign user_pk user content.enc with
    | Except.error _ => (sent1, some (Except.error ProtocolError.SignatureError))
    | Except.ok sig =>
      let sent2 := sent1 ++ [HandshakeFrame.auth
        (ClientAuth.V0 { content := content, sig := sig })]
      match auth_result with
      | none => (sent2, some (Except.error ProtocolError.InvalidState))
      | some ar =>
        match ar.result with
        | 0 => (sent2, some (Except.ok ()))
        | Nat.succ r =>
          match ProtocolError.tryFrom (Nat.succ r) with
          | some e => (sent2, some (Except.error e))
          | none => (sent2, none)

/-- Spec-side description of the handshake, from the words of the claim:
the client auth frame carries content made of the user key, the client
key and the nonce of the ServerHello, signed by the user private key over
the canonical encoding of that content; after AuthResult the client
proceeds exactly when result equals 0 and otherwise returns the
ProtocolError decoded from the result code. -/
def open_broker_connection_spec
    (server_hello : Option ServerHello) (auth_result : Option AuthResult)
    (user : PubKey) (user_pk : PrivKey) (client : PubKey) :
    List HandshakeFrame × Option (Except ProtocolError Unit) :=
  let hello := [HandshakeFrame.start (StartProtocol.Auth ClientHello.V0)]
  match server_hello with
  | none => (hello, some (Except.error ProtocolError.InvalidState))
  | some sh =>
    let content : ClientAuthContentV0 :=
      { user := user, client := client, nonce := sh.nonce }
    let frames := hello ++ [HandshakeFrame.auth
      (ClientAuth.V0
        { content := content,
          sig := Sig.Ed25519Sig
            (SigTerm.signed user_pk.slice user.slice content.enc) })]
    match auth_result with
    | none => (frames, some (Except.error ProtocolError.InvalidState))
    | some ar =>
      if ar.result = 0 then (frames, some (Except.ok ()))
      else
        match ProtocolError.tryFrom ar.result with
        | some e => (frames, some (Except.error e))
        | none => (frames, none)

/-- C7: in the authentication handshake the client sends a ClientAuth
whose content is the user key, the client key and the nonce from the
ServerHello, signed with an Ed25519 signature by the user private key
over the canonical (BARE) encoding of that content; after receiving
AuthResult the client opens the multiplexed connection exactly when
result equals 0 and otherwise returns the ProtocolError decoded from the
result code. -/
theorem claim_C7_auth_handshake
    (server_hello : Option ServerHello) (auth_result : Option AuthResult)
    (user : PubKey) (user_pk : PrivKey) (client : PubKey) :
    ConnectionRemote.open_broker_connection server_hello auth_result user user_pk client =
      open_broker_connection_spec server_hello auth_result user user_pk client := by
  cases server_hello with
  | none => rfl
  | some sh =>
    cases user_pk with
    | Ed25519PrivKey sk =>
      cases user with
      | Ed25519PubKey pk =>
        cases auth_result with
        | none => rfl
        | some ar =>
          cases ar with
          | V0 a =>
            simp only [ConnectionRemote.open_broker_connection,
              open_broker_connection_spec, sign, AuthResult.result,
              PrivKey.slice, PubKey.slice]
            cases h : a.result with
            | zero => simp
            | succ r => simp

/-! ### put_block / put_object
(src/lofire-broker/src/connection.rs, `OverlayConnectionClient::put_block`
and `OverlayConnectionClient::put_object`) -/

/-- Modelled from the spec: `Object` in lofire/src/object.rs (not under
src/). The external assembler splits an ObjectContent into blocks and
returns them together with the distinguished root block; per section 3
the object id is the id of the root block. -/
structure Object where
  blocks : List Block
  root : Block
deriving DecidableEq, Repr

def Object.id (o : Object) : ObjectId := o.root.id

/-- `put_block`: sends a BlockPut overlay request and returns the id of
the block. -/
def OverlayConnectionClient.put_block
    (handler : BrokerOverlayRequestContentV0 → Except ProtocolError Unit)
    (block : Block) : Except ProtocolError BlockId :=
  match handler (BrokerOverlayRequestContentV0.BlockPut (BlockPut.V0 block)) with
  | Except.error e => Except.error e
  | Except.ok _ => Except.ok block.id

/-- The dedup loop of `put_object`: iterate over the assembled blocks,
skip a block whose id is already in the `deduplicated` set, otherwise
issue put_block (aborting on its error) and add the id to the set. The
first component collects the blocks for which put_block was issued. -/
def OverlayConnectionClient.put_object_loop
    (handler : BrokerOverlayRequestContentV0 → Except ProtocolError Unit) :
    List Block → List ObjectId → List Block → List Block × Except ProtocolError Unit
  | [], _, trace => (trace, Except.ok ())
  | b :: rest, deduplicated, trace =>
    if b.id ∈ deduplicated then
      OverlayConnectionClient.put_object_loop handler rest deduplicated trace
    else
      match OverlayConnectionClient.put_block handler b with
      | Except.error e => (trace ++ [b], Except.error e)
      | Except.ok _ =>
          OverlayConnectionClient.put_object_loop handler rest
            (b.id :: deduplicated) (trace ++ [b])

/-- `put_object`: run the dedup loop over the blocks of the assembled
object and on success return the object id (the id of the root block). -/
def OverlayConnectionClient.put_object
    (handler : BrokerOverlayRequestContentV0 → Except ProtocolError Unit)
    (obj : Object) : List Block × Except ProtocolError ObjectId :=
  match OverlayConnectionClient.put_object_loop handler obj.blocks [] [] with
  | (trace, Except.ok _) => (trace, Except.ok obj.id)
  | (trace, Except.error e) => (trace, Except.error e)

lemma put_object_loop_nodup
    (handler : BrokerOverlayRequestContentV0 → Except ProtocolError Unit) :
    ∀ (bs : List Block) (deduplicated : List ObjectId) (trace : List Block),
    (trace.map Block.id).Nodup →
    (∀ x, x ∈ deduplicated ↔ x ∈ trace.map Block.id) →
    ((OverlayConnectionClient.put_object_loop handler bs deduplicated trace).1.map
        Block.id).Nodup ∧
    (∀ b, b ∈ (OverlayConnectionClient.put_object_loop handler bs deduplicated trace).1 →
        b ∈ trace ∨ b ∈ bs) := by
  intro bs
  induction bs with
  | nil =>
    intro deduplicated trace h1 h2
    refine ⟨by simpa [OverlayConnectionClient.put_object_loop] using h1, ?_⟩
    intro b hb
    simp only [OverlayConnectionClient.put_object_loop] at hb
    exact Or.inl hb
  | cons b rest ih =>
    intro deduplicated trace h1 h2
    by_cases hdup : b.id ∈ deduplicated
    · have := ih deduplicated trace h1 h2
      constructor
      · simpa [OverlayConnectionClient.put_object_loop, hdup] using this.1
      · intro x hx
        simp only [OverlayConnectionClient.put_object_loop, hdup, if_pos] at hx
        rcases this.2 x hx with h | h
        · exact Or.inl h
        · exact Or.inr (List.mem_cons_of_mem b h)
    · have hnotin : b.id ∉ trace.map Block.id := fun hmem => hdup ((h2 b.id).mpr hmem)
      have h1e : ((trace ++ [b]).map Block.id).Nodup := by
        simp only [List.map_append, List.map_cons, List.map_nil]
        exact List.Nodup.append h1 (List.nodup_singleton _)
          (by simpa [List.disjoint_singleton] using hnotin)
      have h2e : ∀ x, x ∈ b.id :: deduplicated ↔ x ∈ (trace ++ [b]).map Block.id := by
        intro x
        simp only [List.mem_cons, List.map_append, List.mem_append, List.map_cons,
          List.map_nil, List.mem_singleton, h2 x]
        tauto
      cases hput : OverlayConnectionClient.put_block handler b with
      | error e =>
        constructor
        · simpa [OverlayConnectionClient.put_object_loop, hdup, hput] using h1e
        · intro x hx
          simp [OverlayConnectionClient.put_object_loop, hdup, hput] at hx
          rcases hx with h | h
          · exact Or.inl h
          · exact Or.inr (by simp [h])
      | ok u =>
        have := ih (b.id :: deduplicated) (trace ++ [b]) h1e h2e
        constructor
        · simpa [OverlayConnectionClient.put_object_loop, hdup, hput] using this.1
        · intro x hx
          simp only [OverlayConnectionClient.put_object_loop, hput] at hx
          rw [if_neg hdup] at hx
          rcases this.2 x hx with h | h
          · rcases List.mem_append.mp h with h | h
            · exact Or.inl h
            · exact Or.inr (by simp at h; simp [h])
          · exact Or.inr (List.mem_cons_of_mem b h)

lemma put_object_loop_snd
    (handler : BrokerOverlayRequestContentV0 → Except ProtocolError Unit) :
    ∀ (bs : List Block) (deduplicated : List ObjectId) (trace : List Block),
    (OverlayConnectionClient.put_object_loop handler bs deduplicated trace).2 =
        Except.ok () ∨
    ∃ e, (OverlayConnectionClient.put_object_loop handler bs deduplicated trace).2 =
        Except.error e := by
  intro bs
  induction bs with
  | nil => intro deduplicated trace; left; rfl
  | cons b rest ih =>
    intro deduplicated trace
    by_cases hdup : b.id ∈ deduplicated
    · simpa [OverlayConnectionClient.put_object_loop, hdup] using ih deduplicated trace
    · cases hput : OverlayConnectionClient.put_block handler b with
      | error e =>
        right
        exact ⟨e, by simp [OverlayConnectionClient.put_object_loop, hdup, hput]⟩
      | ok u =>
        simpa [OverlayConnectionClient.put_object_loop, hdup, hput] using
          ih (b.id :: deduplicated) (trace ++ [b])

/-- C8: for every assembled object, put_object issues put_block at most
once per distinct block id (the blocks actually put have pairwise
distinct ids), every block put is one of the blocks of the object, and on
success the call returns the id of the root block of the object. -/
theorem claim_C8_put_object_dedup
    (handler : BrokerOverlayRequestContentV0 → Except ProtocolError Unit) (obj : Object) :
    ((OverlayConnectionClient.put_object handler obj).1.map Block.id).Nodup ∧
    (∀ b, b ∈ (OverlayConnectionClient.put_object handler obj).1 → b ∈ obj.blocks) ∧
    ((OverlayConnectionClient.put_object handler obj).2 = Except.ok obj.root.id ∨
      ∃ e, (OverlayConnectionClient.put_object handler obj).2 = Except.error e) := by
  have hmain := put_object_loop_nodup handler obj.blocks [] []
    (by simp) (by intro x; simp)
  have hsnd := put_object_loop_snd handler obj.blocks [] []
  cases hloop : OverlayConnectionClient.put_object_loop handler obj.blocks [] [] with
  | mk trace r =>
    rw [hloop] at hmain hsnd
    cases r with
    | ok u =>
      refine ⟨?_, ?_, Or.inl ?_⟩
      · simpa [OverlayConnectionClient.put_object, hloop] using hmain.1
      · intro b hb
        have hb2 : b ∈ trace := by
          simpa [OverlayConnectionClient.put_object, hloop] using hb
        rcases hmain.2 b hb2 with h | h
        · simp at h
        · exact h
      · simp [OverlayConnectionClient.put_object, hloop, Object.id]
    | error e =>
      refine ⟨?_, ?_, Or.inr ⟨e, ?_⟩⟩
      · simpa [OverlayConnectionClient.put_object, hloop] using hmain.1
      · intro b hb
        have hb2 : b ∈ trace := by
          simpa [OverlayConnectionClient.put_object, hloop] using hb
        rcases hmain.2 b hb2 with h | h
        · simp at h
        · exact h
      · simp [OverlayConnectionClient.put_object, hloop]

/-! ### Local versus remote connection
(src/lofire-broker/src/connection.rs, `BrokerConnectionLocal` and
`BrokerConnectionRemote`) -/

/-- Modelled from the spec: the broker engine `BrokerServer`
(src/lofire-broker/src/server.rs is not under src/). The engine is taken
as an abstract record mapping each operation of sections 4.3/4.4 to its
result; both connection flavours are interpreted against the same
record. -/
structure BrokerServer where
  overlay_connect : OverlayId → Except ProtocolError Unit
  overlay_join : OverlayId → SymKey → List PeerAdvert → Except ProtocolError Unit
  block_put : OverlayId → Block → Except ProtocolError Unit
  block_get : OverlayId → BlockId → Bool → Option PubKey → Except ProtocolError (List Block)
  topic_sub : OverlayId → TopicSub → Except ProtocolError Unit
  topic_unsub : OverlayId → TopicUnsub → Except ProtocolError Unit
  topic_connect : OverlayId → TopicConnect → Except ProtocolError Unit
  topic_disconnect : OverlayId → TopicDisconnect → Except ProtocolError Unit
  object_pin : OverlayId → ObjectPin → Except ProtocolError Unit
  object_unpin : OverlayId → ObjectUnpin → Except ProtocolError Unit
  object_copy : OverlayId → ObjectCopy → Except ProtocolError Unit
  object_del : OverlayId → ObjectDel → Except ProtocolError Unit
  branch_sync : OverlayId → BranchSyncReq → Except ProtocolError (List Block)

/-- `BrokerConnectionLocal::process_overlay_request` (source lines 346 to
361): only OverlayConnect, OverlayJoin and BlockPut reach the engine;
every other variant is answered InvalidState without consulting it. -/
def BrokerConnectionLocal.process_overlay_request (broker : BrokerServer)
    (overlay : OverlayId) :
    BrokerOverlayRequestContentV0 → Except ProtocolError Unit
  | BrokerOverlayRequestContentV0.OverlayConnect _ => broker.overlay_connect overlay
  | BrokerOverlayRequestContentV0.OverlayJoin j =>
      broker.overlay_join overlay j.secret j.peers
  | BrokerOverlayRequestContentV0.BlockPut b => broker.block_put overlay b.block
  | _ => Except.error ProtocolError.InvalidState

/-- `BrokerConnectionLocal::process_overlay_request_stream_response`
(source lines 363 to 376): only BlockGet reaches the engine; the source
carries the comment "TODO BranchSyncReq". -/
def BrokerConnectionLocal.process_overlay_request_stream_response (broker : BrokerServer)
    (overlay : OverlayId) :
    BrokerOverlayRequestContentV0 → Except ProtocolError (List Block)
  | BrokerOverlayRequestContentV0.BlockGet b =>
      broker.block_get overlay b.id b.include_children b.topic
  | _ => Except.error ProtocolError.InvalidState

/-- Modelled from the spec: broker-side dispatch of a received unary
BrokerOverlayRequest per section 4.4.1 (server.rs is not under src/);
variants the engine does not terminate locally decode to an error. -/
def BrokerServer.dispatch_overlay_request (broker : BrokerServer) (overlay : OverlayId) :
    BrokerOverlayRequestContentV0 → Except ProtocolError Unit
  | BrokerOverlayRequestContentV0.OverlayConnect _ => broker.overlay_connect overlay
  | BrokerOverlayRequestContentV0.OverlayJoin j =>
      broker.overlay_join overlay j.secret j.peers
  | BrokerOverlayRequestContentV0.BlockPut b => broker.block_put overlay b.block
  | BrokerOverlayRequestContentV0.TopicSub t => broker.topic_sub overlay t
  | BrokerOverlayRequestContentV0.TopicUnsub t => broker.topic_unsub overlay t
  | BrokerOverlayRequestContentV0.TopicConnect t => broker.topic_connect overlay t
  | BrokerOverlayRequestContentV0.TopicDisconnect t => broker.topic_disconnect overlay t
  | BrokerOverlayRequestContentV0.ObjectPin p => broker.object_pin overlay p
  | BrokerOverlayRequestContentV0.ObjectUnpin p => broker.object_unpin overlay p
  | BrokerOverlayRequestContentV0.ObjectCopy p => broker.object_copy overlay p
  | BrokerOverlayRequestContentV0.ObjectDel p => broker.object_del overlay p
  | _ => Except.error ProtocolError.InvalidMessage

/-- Modelled from the spec: broker-side dispatch of a received streamed
request per section 4.4.2 (BlockGet and BranchSyncReq). -/
def BrokerServer.dispatch_overlay_request_stream (broker : BrokerServer)
    (overlay : OverlayId) :
    BrokerOverlayRequestContentV0 → Except ProtocolError (List Block)
  | BrokerOverlayRequestContentV0.BlockGet b =>
      broker.block_get overlay b.id b.include_children b.topic
  | BrokerOverlayRequestContentV0.BranchSyncReq r => broker.branch_sync overlay r
  | _ => Except.error ProtocolError.InvalidMessage

/-- Modelled from the spec: the observable result of a remote unary call.
The remote connection writes the request frame; the reader task and the
unary one-shot (modelled above) correlate the single response by id
(section 4.5.1), so the caller receives exactly the engine dispatch
result. -/
def BrokerConnectionRemote.process_overlay_request_result (broker : BrokerServer)
    (overlay : OverlayId) (request : BrokerOverlayRequestContentV0) :
    Except ProtocolError Unit :=
  broker.dispatch_overlay_request overlay request

/-- Modelled from the spec: the observable result of a remote streaming
call, the header outcome and the streamed blocks delivered by the engine
per sections 4.4.2 and 4.5.2. -/
def BrokerConnectionRemote.process_overlay_request_stream_result (broker : BrokerServer)
    (overlay : OverlayId) (request : BrokerOverlayRequestContentV0) :
    Except ProtocolError (List Block) :=
  broker.dispatch_overlay_request_stream overlay request

/-- A broker engine for which every operation succeeds (streams deliver no
blocks). -/
def c5_broker : BrokerServer :=
  { overlay_connect := fun _ => Except.ok (),
    overlay_join := fun _ _ _ => Except.ok (),
    block_put := fun _ _ => Except.ok (),
    block_get := fun _ _ _ _ => Except.ok [],
    topic_sub := fun _ _ => Except.ok (),
    topic_unsub := fun _ _ => Except.ok (),
    topic_connect := fun _ _ => Except.ok (),
    topic_disconnect := fun _ _ => Except.ok (),
    object_pin := fun _ _ => Except.ok (),
    object_unpin := fun _ _ => Except.ok (),
    object_copy := fun _ _ => Except.ok (),
    object_del := fun _ _ => Except.ok (),
    branch_sync := fun _ _ => Except.ok [] }

def c5_overlay : OverlayId := Digest.Blake3Digest32 (Blake3Term.hash [5])

def c5_del_request : BrokerOverlayRequestContentV0 :=
  BrokerOverlayRequestContentV0.ObjectDel
    (ObjectDel.V0 { id := Digest.Blake3Digest32 (Blake3Term.hash [6]) })

def c5_sync_request : BrokerOverlayRequestContentV0 :=
  BrokerOverlayRequestContentV0.BranchSyncReq
    (BranchSyncReq.V0 { heads := [], known_heads := [], known_commits := { k := 0, f := [] } })

/-- C5 (code bug): the local and the remote connection do not share
identical observable semantics on every operation of the contract.
Against a broker engine for which every operation succeeds, an ObjectDel
unary request succeeds remotely but the local implementation answers
InvalidState without consulting the engine, and a BranchSyncReq streaming
request succeeds remotely while the local implementation (marked TODO
BranchSyncReq in the source) answers InvalidState. The demo exercises
delete_object and sync_branch through both connection flavours. -/
theorem claim_C5_local_remote_divergence :
    BrokerConnectionLocal.process_overlay_request c5_broker c5_overlay c5_del_request =
      Except.error ProtocolError.InvalidState ∧
    BrokerConnectionRemote.process_overlay_request_result c5_broker c5_overlay
      c5_del_request = Except.ok () ∧
    BrokerConnectionLocal.process_overlay_request_stream_response c5_broker c5_overlay
      c5_sync_request = Except.error ProtocolError.InvalidState ∧
    BrokerConnectionRemote.process_overlay_request_stream_result c5_broker c5_overlay
      c5_sync_request = Except.ok [] :=
  ⟨rfl, rfl, rfl, rfl⟩

/-! ### Overlay registry
(src/lofire-broker/src/overlay.rs, `Overlay::create`) -/

/-- Modelled from the spec: `StorageError` in lofire/src/store.rs (not
under src/); the variants used by the overlay registry code are NotFound
and BackendError. -/
inductive StorageError where
  | NotFound
  | InvalidValue
  | BackendError
  | SerializationError
deriving DecidableEq, Repr

/-- Modelled from the spec: the `BrokerStore` key/value contract
(lofire/src/brokerstore.rs is not under src/). Keys are formed as
prefix byte, bare-encoded id, suffix byte; a property may hold several
values (set semantics). `fail_put` injects backend write failures, which
leave the store unchanged. -/
structure BrokerStore where
  entries : List ((Nat × Bytes × Option Nat) × Bytes)
  fail_put : List (Nat × Bytes × Option Nat)
deriving DecidableEq, Repr

def BrokerStore.get (s : BrokerStore) (pfx : Nat) (key : Bytes) (suffix : Option Nat) :
    Except StorageError Bytes :=
  match s.entries.find? (fun e => decide (e.1 = (pfx, key, suffix))) with
  | some e => Except.ok e.2
  | none => Except.error StorageError.NotFound

def BrokerStore.put (s : BrokerStore) (pfx : Nat) (key : Bytes) (suffix : Option Nat)
    (value : Bytes) : Except StorageError BrokerStore :=
  if (pfx, key, suffix) ∈ s.fail_put then
    Except.error StorageError.BackendError
  else if s.entries.any (fun e => decide (e.1 = (pfx, key, suffix)) && decide (e.2 = value)) then
    Except.ok s
  else
    Except.ok { s with entries := s.entries ++ [((pfx, key, suffix), value)] }

/-- Per-overlay metadata record (src/lofire-broker/src/overlay.rs). -/
structure OverlayMeta where
  users : Nat
  last_used : Timestamp
deriving DecidableEq, Repr

def OverlayMeta.enc (m : OverlayMeta) : Bytes := [m.users, m.last_used]

/-- The constants of Overlay: PREFIX is the byte of "o"; the property
suffixes are the bytes of "s" (secret), "p" (peer), "t" (topic),
"m" (meta), "r" (repo). -/
def Overlay.PFX : Nat := 111

def Overlay.SECRET : Nat := 115

def Overlay.PEER : Nat := 112

def Overlay.TOPIC : Nat := 116

def Overlay.META : Nat := 109

def Overlay.REPO : Nat := 114

def Overlay.SUFFIX_FOR_EXIST_CHECK : Nat := Overlay.SECRET

/-- `Overlay::exists`: the overlay is present when its SECRET property can
be read. -/
def Overlay.exists_check (id : OverlayId) (store : BrokerStore) : Bool :=
  match store.get Overlay.PFX id.enc (some Overlay.SUFFIX_FOR_EXIST_CHECK) with
  | Except.ok _ => true
  | Except.error _ => false

/-- `Overlay::create`, with the store threaded explicitly: refuse when the
overlay exists (the source returns StorageError::BackendError here), then
put SECRET, then optionally put REPO, then put META with users = 1 and
last_used = now; each failing step propagates its error, leaving the
properties already written in place (the source marks the missing cleanup
with TODO comments). -/
def Overlay.create (id : OverlayId) (secret : SymKey) (repo : Option PubKey)
    (now : Timestamp) (store : BrokerStore) :
    Except StorageError Unit × BrokerStore :=
  if Overlay.exists_check id store then
    (Except.error StorageError.BackendError, store)
  else
    match store.put Overlay.PFX id.enc (some Overlay.SECRET) secret.enc with
    | Except.error e => (Except.error e, store)
    | Except.ok s1 =>
      match repo with
      | some r =>
        match s1.put Overlay.PFX id.enc (some Overlay.REPO) r.enc with
        | Except.error e => (Except.error e, s1)
        | Except.ok s2 =>
          match s2.put Overlay.PFX id.enc (some Overlay.META)
              (OverlayMeta.enc { users := 1, last_used := now }) with
          | Except.error e => (Except.error e, s2)
          | Except.ok s3 => (Except.ok (), s3)
      | none =>
        match s1.put Overlay.PFX id.enc (some Overlay.META)
            (OverlayMeta.enc { users := 1, last_used := now }) with
        | Except.error e => (Except.error e, s1)
        | Except.ok s3 => (Except.ok (), s3)

def c6_id : OverlayId := Digest.Blake3Digest32 (Blake3Term.hash [])

def c6_secret : SymKey := SymKey.ChaCha20Key [3]

/-- A store whose backend rejects the write of the META property of the
overlay and accepts every other write. -/
def c6_store : BrokerStore :=
  { entries := [], fail_put := [(Overlay.PFX, c6_id.enc, some Overlay.META)] }

/-- A store in which the overlay is already present (its SECRET property
is set). -/
def c6_store_present : BrokerStore :=
  { entries := [((Overlay.PFX, c6_id.enc, some Overlay.SECRET), c6_secret.enc)],
    fail_put := [] }

/-- C6 (code bug): create is not atomic. On a store whose backend rejects
the META write, create fails after having written the SECRET property,
and the SECRET property remains readable in the resulting store, contrary
to the claim that no property written earlier survives a partial failure
(the source marks the missing cleanup with TODO comments). Moreover, when
the overlay is already present, create fails with the generic
StorageError::BackendError rather than a dedicated already-exists kind. -/
theorem claim_C6_create_not_atomic :
    (Overlay.create c6_id c6_secret none 0 c6_store).1 =
      Except.error StorageError.BackendError ∧
    ((Overlay.create c6_id c6_secret none 0 c6_store).2.get Overlay.PFX c6_id.enc
        (some Overlay.SECRET)) = Except.ok c6_secret.enc ∧
    (Overlay.create c6_id c6_secret none 0 c6_store_present).1 =
      Except.error StorageError.BackendError := by
  refine ⟨?_, ?_, ?_⟩ <;> rfl
